import Mathlib

/-!
Verification of the Flashcard Frenzy room lifecycle and scoring logic.

This file gives a shallow embedding of the application logic found in
`src/components/GameLobby.tsx` (lobby: fetchRooms, createRoom, joinRoom) and in
the GameRoom component (submitAnswer, startNewRound, fetchCurrentCard,
fetchPlayers, checkIfHost, leaveRoom), over a model of the five persisted
tables (`users`, `flashcards`, `game_rooms`, `game_players`, `match_history`).

Modelling conventions:
- Record ids (uuids / bigserial) are modelled as `Nat`.
- The remote record store is a `DB` value holding the table rows; each remote
  call becomes a pure state transformation.  A store-reported error (transport
  failure, errored update) is modelled as an explicit parameter of the
  operation, and an errored call leaves the store unchanged.
- The `UNIQUE(room_id, user_id)` constraint on `game_players` (from the SQL
  migration) is modelled inside the insert operation: inserting a duplicate
  key yields the unique-violation error code "23505" instead of a new row.
- JavaScript `String.prototype.toLowerCase` / `trim` are embedded as
  executable functions over the character list of a `String` (ASCII letters
  and ASCII whitespace, which covers all data in this application); the
  built-in Lean `String` operations are not used because they do not reduce
  in the kernel.
- Presentational state (loading spinners, the controlled input box, toast
  rendering, ordering of the leaderboard by score) is not modelled; feedback
  messages are modelled verbatim as the strings the source constructs.
-/

/-! ## JavaScript string primitives used by the source -/

/-- `Char` lowercase step of JavaScript `toLowerCase`, on the ASCII range. -/
def charLower (c : Char) : Char :=
  if 'A' ≤ c ∧ c ≤ 'Z' then Char.ofNat (c.toNat + 32) else c

/-- The whitespace characters removed by JavaScript `trim`
(ASCII space, tab, newline, carriage return). -/
def isSpaceChar (c : Char) : Bool :=
  c == ' ' || c == '\t' || c == '\n' || c == '\r'

/-- Remove leading and trailing whitespace from a character list. -/
def trimChars (l : List Char) : List Char :=
  ((l.dropWhile isSpaceChar).reverse.dropWhile isSpaceChar).reverse

/-- JavaScript `s.trim()`. -/
def jsTrim (s : String) : String :=
  ⟨trimChars s.data⟩

/-- JavaScript `s.toLowerCase()` (ASCII). -/
def jsToLower (s : String) : String :=
  ⟨s.data.map charLower⟩

/-- The answer-normalisation expression of `submitAnswer`:
`s.toLowerCase().trim()`. -/
def jsNormalize (s : String) : String :=
  jsTrim (jsToLower s)

/-- Modelled from the spec: "normalize both strings (lowercase, trim) and
compare for equality".  Written from the spec's words, to be compared with
the source expression `isCorrect`. -/
def specNormalize (s : String) : String :=
  jsTrim (jsToLower s)

/-- The correctness test of `submitAnswer`:
`userAnswer.toLowerCase().trim() === currentCard.answer.toLowerCase().trim()`. -/
def isCorrect (userAnswer storedAnswer : String) : Bool :=
  jsNormalize userAnswer == jsNormalize storedAnswer

/-! ## Data model (tables of the SQL schema) -/

/-- A row of `flashcards`. -/
structure Flashcard where
  id : Nat
  question : String
  answer : String
  category : String
deriving DecidableEq, Repr

/-- A row of `game_rooms`. -/
structure Room where
  id : Nat
  name : String
  host_id : Nat
  is_active : Bool
  current_card_id : Option Nat
deriving DecidableEq, Repr

/-- A row of `game_players` (a Membership in the spec's vocabulary). -/
structure Player where
  room_id : Nat
  user_id : Nat
  score : Nat
deriving DecidableEq, Repr

/-- A row of `match_history` (a MatchRecord in the spec's vocabulary). -/
structure MatchRecord where
  room_id : Nat
  card_id : Nat
  winner_id : Option Nat
deriving DecidableEq, Repr

/-- The record store: the tables the modelled operations touch. -/
structure DB where
  rooms : List Room
  flashcards : List Flashcard
  game_players : List Player
  match_history : List MatchRecord
deriving DecidableEq, Repr

/-- `game_players` rows matching the key `(room_id, user_id)`. -/
def playerKey (r u : Nat) (p : Player) : Bool :=
  p.room_id == r && p.user_id == u

/-- The first `game_players` row for `(room_id, user_id)` (unique per the
schema constraint). -/
def lookupPlayer (db : DB) (r u : Nat) : Option Player :=
  db.game_players.find? (playerKey r u)

/-- Number of `game_players` rows for `(room_id, user_id)`. -/
def countPlayers (db : DB) (r u : Nat) : Nat :=
  db.game_players.countP (playerKey r u)

/-- The first `game_rooms` row with the given id. -/
def lookupRoom (db : DB) (rid : Nat) : Option Room :=
  db.rooms.find? (fun rm => rm.id == rid)

/-- The first `flashcards` row with the given id. -/
def lookupCard (db : DB) (fid : Nat) : Option Flashcard :=
  db.flashcards.find? (fun c => c.id == fid)

/-! ## Lobby operations (`src/components/GameLobby.tsx`) -/

namespace Lobby

/-- `fetchRooms`: `select * , game_players ( id ) from game_rooms where
is_active = true`, a left join, then `player_count := game_players.length`.
Each active room is paired with its membership count; a room with no
`game_players` rows is kept with count 0. -/
def fetchRooms (db : DB) : List (Room × Nat) :=
  (db.rooms.filter (fun rm => rm.is_active)).map
    (fun rm => (rm, (db.game_players.filter (fun p => p.room_id == rm.id)).length))

/-- Result of the `game_players` insert issued by `joinRoom`/`createRoom`.
`transport` injects a store/transport failure (the error object's `code`);
absent that, the store itself enforces `UNIQUE(room_id, user_id)` and reports
code "23505" on a duplicate.  An errored insert writes nothing. -/
def insertPlayer (db : DB) (r u : Nat) (transport : Option String) :
    DB × Option String :=
  match transport with
  | some e => (db, some e)
  | none =>
    if db.game_players.any (playerKey r u) then
      (db, some "23505")
    else
      ({ db with game_players := db.game_players ++ [⟨r, u, 0⟩] }, none)

/-- Outcome of `joinRoom` as the user sees it: did the caller enter the room,
and which error (if any) was surfaced. -/
structure JoinResult where
  db : DB
  entered : Bool
  surfaced : Option String
deriving DecidableEq, Repr

/-- `joinRoom` of `GameLobby.tsx`: insert a `game_players` row; on error with
code 23505 treat the caller as already a member and enter the room; surface
any other error; on success enter the room. -/
def joinRoom (db : DB) (r u : Nat) (transport : Option String) : JoinResult :=
  match insertPlayer db r u transport with
  | (db1, some e) =>
    if e == "23505" then ⟨db1, true, none⟩ else ⟨db1, false, some e⟩
  | (db1, none) => ⟨db1, true, none⟩

/-- Outcome of `createRoom` as the user sees it. -/
inductive CreateOutcome where
  /-- `if (!newRoomName.trim()) return`: the empty-after-trim name is
  rejected before any store call (the spec's ValidationError). -/
  | validationFailed
  /-- `getUser` returned no user: surfaced, nothing inserted. -/
  | authFailed
  /-- The `game_rooms` insert errored: surfaced, nothing inserted. -/
  | roomInsertFailed
  /-- Room inserted but the host's own `game_players` insert errored:
  surfaced, the caller does not enter the room. -/
  | createdJoinFailed (rid : Nat)
  /-- Room and host membership inserted; the caller enters the room. -/
  | created (rid : Nat)
deriving DecidableEq, Repr

/-- `createRoom` of `GameLobby.tsx`.  `user` is the authenticated account (if
any), `rid` the fresh uuid the store assigns to the new room, and
`roomErr`/`joinErr` inject store failures of the two inserts.  The room row is
inserted with `is_active` defaulted to true and no current card (SQL column
defaults), and the host membership is inserted with the default score 0. -/
def createRoom (db : DB) (name : String) (user : Option Nat) (rid : Nat)
    (roomErr joinErr : Bool) : DB × CreateOutcome :=
  if jsTrim name == "" then
    (db, .validationFailed)
  else
    match user with
    | none => (db, .authFailed)
    | some u =>
      if roomErr then
        (db, .roomInsertFailed)
      else
        let db1 : DB := { db with rooms := db.rooms ++ [⟨rid, name, u, true, none⟩] }
        if joinErr then
          (db1, .createdJoinFailed rid)
        else
          ({ db1 with game_players := db1.game_players ++ [⟨rid, u, 0⟩] },
            .created rid)

end Lobby

/-! ## Claims about the lobby -/

/-- C3.  For every account and room, joining the room a second time with the
same account yields exactly one `game_players` row and no user-visible error:
the second insert hits the `UNIQUE(room_id, user_id)` constraint, `joinRoom`
recognises the unique-violation code "23505" and enters the room as
already-a-member success, and the store is left unchanged; any other error
reported by the insert is surfaced to the user instead. -/
theorem joinRoom_twice_idempotent :
    (∀ (db : DB) (r u : Nat), countPlayers db r u = 0 →
      (Lobby.joinRoom db r u none).entered = true ∧
      (Lobby.joinRoom db r u none).surfaced = none ∧
      (Lobby.joinRoom (Lobby.joinRoom db r u none).db r u none).entered = true ∧
      (Lobby.joinRoom (Lobby.joinRoom db r u none).db r u none).surfaced = none ∧
      (Lobby.joinRoom (Lobby.joinRoom db r u none).db r u none).db
        = (Lobby.joinRoom db r u none).db ∧
      countPlayers (Lobby.joinRoom (Lobby.joinRoom db r u none).db r u none).db r u = 1) ∧
    (∀ (db : DB) (r u : Nat) (e : String), e ≠ "23505" →
      (Lobby.joinRoom db r u (some e)).entered = false ∧
      (Lobby.joinRoom db r u (some e)).surfaced = some e ∧
      (Lobby.joinRoom db r u (some e)).db = db) := by
  constructor
  · intro db r u h
    have hnone : ∀ p ∈ db.game_players, ¬ playerKey r u p = true :=
      List.countP_eq_zero.mp h
    have hany : db.game_players.any (playerKey r u) = false := by
      rw [List.any_eq_false]; exact hnone
    have hkey : playerKey r u ⟨r, u, 0⟩ = true := by simp [playerKey]
    have hany2 : (db.game_players ++ [(⟨r, u, 0⟩ : Player)]).any (playerKey r u) = true := by
      rw [List.any_eq_true]
      exact ⟨⟨r, u, 0⟩, by simp, hkey⟩
    refine ⟨?_, ?_, ?_, ?_, ?_, ?_⟩ <;>
      simp [Lobby.joinRoom, Lobby.insertPlayer, hany, hany2, countPlayers,
        List.countP_append, List.countP_eq_zero.mpr hnone, hkey]
  · intro db r u e he
    have hbe : (e == "23505") = false := by
      exact beq_eq_false_iff_ne.mpr he
    refine ⟨?_, ?_, ?_⟩ <;> simp [Lobby.joinRoom, Lobby.insertPlayer, hbe]

/-- Witness for C3 at a concrete store: user 7 joins room 1 twice starting
from a store with no memberships, and a transport error "500" is surfaced. -/
theorem joinRoom_twice_idempotent_witness :
    ((Lobby.joinRoom (DB.mk [⟨1, "Quiz", 7, true, none⟩] [] [] []) 1 7 none).entered = true ∧
     (Lobby.joinRoom (DB.mk [⟨1, "Quiz", 7, true, none⟩] [] [] []) 1 7 none).surfaced = none ∧
     (Lobby.joinRoom (Lobby.joinRoom (DB.mk [⟨1, "Quiz", 7, true, none⟩] [] [] []) 1 7 none).db
        1 7 none).entered = true ∧
     (Lobby.joinRoom (Lobby.joinRoom (DB.mk [⟨1, "Quiz", 7, true, none⟩] [] [] []) 1 7 none).db
        1 7 none).surfaced = none ∧
     (Lobby.joinRoom (Lobby.joinRoom (DB.mk [⟨1, "Quiz", 7, true, none⟩] [] [] []) 1 7 none).db
        1 7 none).db
       = (Lobby.joinRoom (DB.mk [⟨1, "Quiz", 7, true, none⟩] [] [] []) 1 7 none).db ∧
     countPlayers (Lobby.joinRoom
        (Lobby.joinRoom (DB.mk [⟨1, "Quiz", 7, true, none⟩] [] [] []) 1 7 none).db
        1 7 none).db 1 7 = 1) ∧
    ((Lobby.joinRoom (DB.mk [⟨1, "Quiz", 7, true, none⟩] [] [] []) 1 7 (some "500")).entered = false ∧
     (Lobby.joinRoom (DB.mk [⟨1, "Quiz", 7, true, none⟩] [] [] []) 1 7 (some "500")).surfaced
       = some "500" ∧
     (Lobby.joinRoom (DB.mk [⟨1, "Quiz", 7, true, none⟩] [] [] []) 1 7 (some "500")).db
       = DB.mk [⟨1, "Quiz", 7, true, none⟩] [] [] []) :=
  ⟨joinRoom_twice_idempotent.1 (DB.mk [⟨1, "Quiz", 7, true, none⟩] [] [] []) 1 7 (by decide),
   joinRoom_twice_idempotent.2 (DB.mk [⟨1, "Quiz", 7, true, none⟩] [] [] []) 1 7 "500"
     (by decide)⟩

/-- C4.  `fetchRooms` (the left-join version of `GameLobby.tsx`) returns every
`game_rooms` row with `is_active = true` paired with its `game_players` count;
a room with zero membership rows appears with `player_count = 0` rather than
being omitted, and every returned pair is an active room with its count. -/
theorem fetchRooms_left_join (db : DB) :
    (∀ rm ∈ db.rooms, rm.is_active = true →
      (rm, (db.game_players.filter (fun p => p.room_id == rm.id)).length)
        ∈ Lobby.fetchRooms db) ∧
    (∀ rm ∈ db.rooms, rm.is_active = true →
      (db.game_players.filter (fun p => p.room_id == rm.id)).length = 0 →
      (rm, 0) ∈ Lobby.fetchRooms db) ∧
    (∀ x ∈ Lobby.fetchRooms db, x.1 ∈ db.rooms ∧ x.1.is_active = true ∧
      x.2 = (db.game_players.filter (fun p => p.room_id == x.1.id)).length) := by
  have hmain : ∀ rm ∈ db.rooms, rm.is_active = true →
      (rm, (db.game_players.filter (fun p => p.room_id == rm.id)).length)
        ∈ Lobby.fetchRooms db := by
    intro rm hm ha
    exact List.mem_map_of_mem _ (List.mem_filter.mpr ⟨hm, ha⟩)
  refine ⟨hmain, ?_, ?_⟩
  · intro rm hm ha hz
    have h1 := hmain rm hm ha
    rw [hz] at h1
    exact h1
  · intro x hx
    rcases List.mem_map.mp hx with ⟨rm, hrm, heq⟩
    rcases List.mem_filter.mp hrm with ⟨hmem, hact⟩
    subst heq
    exact ⟨hmem, hact, rfl⟩

/-- Witness for C4: in a store with one active room and no memberships at
all (the host's own auto-join having failed), the room is listed with
player count 0. -/
theorem fetchRooms_left_join_witness :
    ((⟨2, "Empty", 9, true, none⟩ : Room), 0)
      ∈ Lobby.fetchRooms (DB.mk [⟨2, "Empty", 9, true, none⟩] [] [] []) :=
  (fetchRooms_left_join (DB.mk [⟨2, "Empty", 9, true, none⟩] [] [] [])).2.1
    ⟨2, "Empty", 9, true, none⟩ (by decide) (by decide) (by decide)

/-- C9.  `createRoom` rejects a room name that is empty after trimming
whitespace before issuing any store call (the spec's ValidationError): the
outcome is `validationFailed` and the store is unchanged, so no `game_rooms`
row and no `game_players` row is inserted. -/
theorem createRoom_empty_name_rejected (db : DB) (name : String) (user : Option Nat)
    (rid : Nat) (roomErr joinErr : Bool) (h : jsTrim name = "") :
    Lobby.createRoom db name user rid roomErr joinErr = (db, .validationFailed) ∧
    (Lobby.createRoom db name user rid roomErr joinErr).1.rooms = db.rooms ∧
    (Lobby.createRoom db name user rid roomErr joinErr).1.game_players = db.game_players := by
  have hb : (jsTrim name == "") = true := beq_iff_eq.mpr h
  refine ⟨?_, ?_, ?_⟩ <;> simp [Lobby.createRoom, hb]

/-- Witness for C9: a whitespace-only name is rejected with no effect on a
concrete store. -/
theorem createRoom_empty_name_rejected_witness :
    Lobby.createRoom (DB.mk [] [] [] []) "  \t " (some 7) 3 false false
      = (DB.mk [] [] [] [], .validationFailed) ∧
    (Lobby.createRoom (DB.mk [] [] [] []) "  \t " (some 7) 3 false false).1.rooms = [] ∧
    (Lobby.createRoom (DB.mk [] [] [] []) "  \t " (some 7) 3 false false).1.game_players = [] :=
  createRoom_empty_name_rejected (DB.mk [] [] [] []) "  \t " (some 7) 3 false false (by decide)

/-! ## GameRoom session (the GameRoom component) -/

/-- The feedback banner: its message and whether its type is 'success'. -/
structure Feedback where
  message : String
  success : Bool
deriving DecidableEq, Repr

/-- Client-side state of one mounted GameRoom component:
the `players` cache, the displayed `currentCard`, the `feedback` banner,
the cached `isHost` flag, and whether a delayed `startNewRound` timer is
pending (the `setTimeout` scheduled after a correct answer). -/
structure Client where
  roomId : Nat
  userId : Nat
  players : List Player
  currentCard : Option Flashcard
  feedback : Option Feedback
  isHost : Bool
  pendingAdvance : Bool
deriving DecidableEq, Repr

/-- One player's session: the shared record store, that player's component
state, and whether the GameRoom component is mounted. -/
structure GState where
  db : DB
  client : Client
  inRoom : Bool
deriving DecidableEq, Repr

namespace Game

/-- `players.find(p => p.user_id === user.id)` followed by
`(currentPlayer?.score || 0)`: the caller's score as cached by the client,
defaulting to 0 when no membership row is found in the local cache. -/
def cachedScore (c : Client) : Nat :=
  match c.players.find? (fun p => p.user_id == c.userId) with
  | some p => p.score
  | none => 0

/-- Initial state of a freshly mounted GameRoom component (`useState`
initialisers): empty players cache, no current card, no feedback, not host,
no pending timer. -/
def freshClient (r u : Nat) : Client :=
  ⟨r, u, [], none, none, false, false⟩

/-- The success banner of a correct answer. -/
def correctFeedback : Feedback :=
  ⟨"Correct! You earned a point!", true⟩

/-- The banner shown when the score update errors. -/
def scoreErrorFeedback : Feedback :=
  ⟨"Error updating score. Please try again.", false⟩

/-- The failure banner of an incorrect answer, revealing the stored answer. -/
def wrongFeedback (card : Flashcard) : Feedback :=
  ⟨"Wrong! The correct answer was: " ++ card.answer, false⟩

/-- The row transformation of
`update({ score: newScore }).eq('room_id', roomId).eq('user_id', user.id)`. -/
def setScore (r u n : Nat) (p : Player) : Player :=
  if playerKey r u p then { p with score := n } else p

/-- The row transformation of
`update({ current_card_id: cards[0].id }).eq('id', roomId)`. -/
def setRoomCard (rid fid : Nat) (rm : Room) : Room :=
  if rm.id == rid then { rm with current_card_id := some fid } else rm

/-- `submitAnswer`: no-op without a current card or with an
empty-after-trim answer; otherwise compare normalised strings.  On a correct
answer: write `cachedScore + 1` to the caller's membership row, and if the
store accepts the update (`updErr = false`) insert one `match_history` row
with the caller as winner, show the success banner and schedule the delayed
`startNewRound`; if the update errors, show the error banner and stop.  On an
incorrect answer: show the failure banner revealing the stored answer. -/
def submitAnswer (text : String) (updErr : Bool) (s : GState) : GState :=
  match s.client.currentCard with
  | none => s
  | some card =>
    if jsTrim text == "" then s
    else if isCorrect text card.answer then
      if updErr then
        { s with client := { s.client with feedback := some scoreErrorFeedback } }
      else
        { db := { s.db with
            game_players :=
              s.db.game_players.map (setScore s.client.roomId s.client.userId
                (cachedScore s.client + 1)),
            match_history :=
              s.db.match_history ++ [⟨s.client.roomId, card.id, some s.client.userId⟩] },
          client := { s.client with
            feedback := some correctFeedback, pendingAdvance := true },
          inRoom := s.inRoom }
    else
      { s with client := { s.client with feedback := some (wrongFeedback card) } }

/-- `startNewRound`: a no-op for a client whose cached `isHost` is false;
otherwise write the picked flashcard's id (if the random pick returned one)
into the room's `current_card_id` and clear the feedback banner. -/
def startNewRound (pick : Option Flashcard) (s : GState) : GState :=
  if s.client.isHost then
    { db :=
        match pick with
        | some c =>
          { s.db with rooms := s.db.rooms.map (setRoomCard s.client.roomId c.id) }
        | none => s.db,
      client := { s.client with feedback := none },
      inRoom := s.inRoom }
  else s

/-- `fetchCurrentCard`: read the room row; if its `current_card_id` is
non-null and the flashcard is found, it becomes the displayed current card;
otherwise nothing changes. -/
def fetchCurrentCard (s : GState) : GState :=
  match lookupRoom s.db s.client.roomId with
  | none => s
  | some rm =>
    match rm.current_card_id with
    | none => s
    | some fid =>
      match lookupCard s.db fid with
      | none => s
      | some card => { s with client := { s.client with currentCard := some card } }

/-- `fetchPlayers`: refresh the client cache with the room's membership rows.
(The leaderboard's ordering by descending score is presentational and not
modelled; it does not affect the unique-key lookup `cachedScore` performs.) -/
def fetchPlayers (s : GState) : GState :=
  { s with client := { s.client with
      players := s.db.game_players.filter (fun p => p.room_id == s.client.roomId) } }

/-- `checkIfHost`: cache `data?.host_id === user.id` (false when the room row
is not found). -/
def checkIfHost (s : GState) : GState :=
  { s with client := { s.client with
      isHost :=
        match lookupRoom s.db s.client.roomId with
        | some rm => rm.host_id == s.client.userId
        | none => false } }

/-- Entering a room from the lobby: the `joinRoom` insert with its
idempotent 23505 handling (the caller enters whether the row was inserted or
already existed), followed by the GameRoom component mounting with fresh
state. -/
def joinAndEnter (u r : Nat) (s : GState) : GState :=
  { db := (Lobby.insertPlayer s.db r u none).1, client := freshClient r u, inRoom := true }

/-- Creating a room from the lobby (`Lobby.createRoom`): on full success the
caller enters the new room with a fresh component; on any failure outcome the
caller stays in the lobby with whatever the store now holds. -/
def createAndEnter (rid : Nat) (name : String) (roomErr joinErr : Bool) (u : Nat)
    (s : GState) : GState :=
  match Lobby.createRoom s.db name (some u) rid roomErr joinErr with
  | (db1, Lobby.CreateOutcome.created r) =>
    { db := db1, client := freshClient r u, inRoom := true }
  | (db1, _) => { s with db := db1 }

/-- `leaveRoom`: delete the caller's own membership row and unmount. -/
def leaveRoom (s : GState) : GState :=
  { db := { s.db with game_players :=
      s.db.game_players.filter (fun p => !(playerKey s.client.roomId s.client.userId p)) },
    client := s.client,
    inRoom := false }

/-- The delayed `setTimeout` callback firing: if a timer is pending, run
`() => { if (isHost) startNewRound() }` (the host check is inside
`startNewRound` as well). -/
def timeoutFire (pick : Option Flashcard) (s : GState) : GState :=
  if s.client.pendingAdvance then
    startNewRound pick { s with client := { s.client with pendingAdvance := false } }
  else s

/-- One step of a single player's session against the store: every operation
of the application that can touch the modelled state.  `pick` of a new round
is any flashcard of the store (the uniform random choice) or none when the
table is empty. -/
inductive Step (u : Nat) : GState → GState → Prop
  | join (s : GState) (r : Nat) (h : s.inRoom = false) :
      Step u s (joinAndEnter u r s)
  | create (s : GState) (rid : Nat) (name : String) (roomErr joinErr : Bool)
      (h : s.inRoom = false) :
      Step u s (createAndEnter rid name roomErr joinErr u s)
  | fetchP (s : GState) (h : s.inRoom = true) : Step u s (fetchPlayers s)
  | fetchC (s : GState) (h : s.inRoom = true) : Step u s (fetchCurrentCard s)
  | checkH (s : GState) (h : s.inRoom = true) : Step u s (checkIfHost s)
  | newRound (s : GState) (pick : Option Flashcard) (h : s.inRoom = true)
      (hp : ∀ c, pick = some c → c ∈ s.db.flashcards) :
      Step u s (startNewRound pick s)
  | submit (s : GState) (text : String) (updErr : Bool) (h : s.inRoom = true) :
      Step u s (submitAnswer text updErr s)
  | fireTimer (s : GState) (pick : Option Flashcard) (h : s.inRoom = true)
      (hp : ∀ c, pick = some c → c ∈ s.db.flashcards) :
      Step u s (timeoutFire pick s)
  | leave (s : GState) (h : s.inRoom = true) : Step u s (leaveRoom s)

/-- A session's starting point: the player is in the lobby, the component
state is unmounted defaults, and the store holds no membership row of this
player (other players' rows and any rooms or flashcards may be present). -/
def InitOk (u : Nat) (s : GState) : Prop :=
  s.inRoom = false ∧ s.client.userId = u ∧ s.client.currentCard = none ∧
  s.client.isHost = false ∧ ∀ p ∈ s.db.game_players, p.user_id ≠ u

/-- States a single player's session can reach. -/
inductive Reach (u : Nat) : GState → Prop
  | init (s : GState) (h : InitOk u s) : Reach u s
  | step (s s2 : GState) (h : Reach u s) (hs : Step u s s2) : Reach u s2

/-- The session invariant tying the client cache to the store. -/
structure Inv (u : Nat) (s : GState) : Prop where
  /-- The component always acts as account `u`. -/
  uid : s.client.userId = u
  /-- In the lobby the player holds no membership row. -/
  lobbyRows : s.inRoom = false → ∀ p ∈ s.db.game_players, p.user_id ≠ u
  /-- In a room, all of the player's rows are in the current room. -/
  rowRoom : s.inRoom = true → ∀ p ∈ s.db.game_players, p.user_id = u →
    p.room_id = s.client.roomId
  /-- The stored score never exceeds the cached score by more than one. -/
  rowBound : ∀ p ∈ s.db.game_players, p.user_id = u →
    p.score ≤ cachedScore s.client + 1
  /-- The player holds at most one membership row. -/
  rowOnce : s.db.game_players.countP (fun p => p.user_id == u) ≤ 1
  /-- The cached host flag is only set when the room row names `u` as host. -/
  hostOk : s.client.isHost = true →
    ∃ rm, lookupRoom s.db s.client.roomId = some rm ∧ rm.host_id = u
  /-- While mounted, a null `current_card_id` means no card is displayed. -/
  awaiting : s.inRoom = true → ∀ rm, lookupRoom s.db s.client.roomId = some rm →
    rm.current_card_id = none → s.client.currentCard = none

end Game

/-! ## List helper lemmas -/

/-- A hit of `find?` survives appending rows on the right. -/
theorem find?_append_some {α : Type} {l1 : List α} (l2 : List α) {p : α → Bool}
    {a : α} (h : l1.find? p = some a) : (l1 ++ l2).find? p = some a := by
  induction l1 with
  | nil => simp [List.find?] at h
  | cons x xs ih =>
    cases hx : p x with
    | true => simp_all [List.find?_cons, hx]
    | false => simp_all [List.find?_cons, hx]

/-- `find?` commutes with a map that does not change the predicate. -/
theorem find?_map_pred {α : Type} (f : α → α) (p : α → Bool)
    (hf : ∀ x, p (f x) = p x) (l : List α) :
    (l.map f).find? p = (l.find? p).map f := by
  induction l with
  | nil => simp
  | cons x xs ih =>
    cases hx : p x with
    | true => simp [List.find?_cons, hx, hf x]
    | false => simp [List.find?_cons, hx, hf x, ih]

/-- `find?` is unchanged by filtering with a predicate its hits satisfy. -/
theorem find?_filter_pred {α : Type} (p q : α → Bool)
    (h : ∀ x, p x = true → q x = true) (l : List α) :
    (l.filter q).find? p = l.find? p := by
  induction l with
  | nil => simp
  | cons x xs ih =>
    cases hx : p x with
    | true =>
      have hq := h x hx
      simp [List.filter_cons, hq, List.find?_cons, hx]
    | false =>
      cases hq : q x with
      | true => simp [List.filter_cons, hq, List.find?_cons, hx, ih]
      | false => simp [List.filter_cons, hq, List.find?_cons, hx, ih]

/-- With at most one hit in the list, `find?` returns any member that is a
hit. -/
theorem find?_of_countP_le_one {α : Type} {p : α → Bool} {l : List α}
    (h : l.countP p ≤ 1) {a : α} (ha : a ∈ l) (hpa : p a = true) :
    l.find? p = some a := by
  induction l with
  | nil => cases ha
  | cons x xs ih =>
    rw [List.countP_cons] at h
    cases hx : p x with
    | true =>
      rw [List.find?_cons, hx]
      rcases List.mem_cons.mp ha with rfl | hmem
      · rfl
      · exfalso
        have hzero : xs.countP p = 0 := by
          simp only [hx, if_true] at h; omega
        have := List.countP_eq_zero.mp hzero a hmem
        exact this hpa
    | false =>
      rw [List.find?_cons, hx]
      rcases List.mem_cons.mp ha with rfl | hmem
      · rw [hpa] at hx; cases hx
      · exact ih (by simp only [hx, Bool.false_eq_true, if_false] at h; omega) hmem

/-- `countP` is unchanged by a map that does not change the predicate. -/
theorem countP_map_pred {α : Type} (f : α → α) (p : α → Bool)
    (hf : ∀ x, p (f x) = p x) (l : List α) :
    (l.map f).countP p = l.countP p := by
  induction l with
  | nil => simp
  | cons x xs ih => simp [List.countP_cons, hf x, ih]

/-- Filtering cannot increase `countP`. -/
theorem countP_filter_le {α : Type} (p q : α → Bool) (l : List α) :
    (l.filter q).countP p ≤ l.countP p := by
  rw [List.countP_filter]
  exact List.countP_mono_left (by intro a _ h; exact ((Bool.and_eq_true ..).mp h).1)

/-! ## The session invariant is established and preserved -/

namespace Game

/-- Key fields are untouched by a score write. -/
theorem setScore_fields (r u n : Nat) (p : Player) :
    (setScore r u n p).room_id = p.room_id ∧ (setScore r u n p).user_id = p.user_id := by
  unfold setScore; split <;> exact ⟨rfl, rfl⟩

/-- The written value of a score write. -/
theorem setScore_score (r u n : Nat) (p : Player) :
    (setScore r u n p).score = if playerKey r u p then n else p.score := by
  unfold setScore; split <;> simp_all

/-- Changing only the banner and the pending-timer flag keeps the invariant. -/
theorem inv_banner {u : Nat} {s : GState} (h : Inv u s) (fb : Option Feedback)
    (pa : Bool) :
    Inv u { s with client := { s.client with feedback := fb, pendingAdvance := pa } } := by
  refine ⟨h.uid, h.lobbyRows, h.rowRoom, ?_, h.rowOnce, h.hostOk, h.awaiting⟩
  exact h.rowBound

/-- The invariant holds at every admissible session start. -/
theorem inv_init {u : Nat} {s : GState} (h : InitOk u s) : Inv u s := by
  obtain ⟨hout, huid, hcard, hhost, hrows⟩ := h
  refine ⟨huid, fun _ => hrows, ?_, ?_, ?_, ?_, ?_⟩
  · intro hin; rw [hout] at hin; cases hin
  · intro p hp hu; exact absurd hu (hrows p hp)
  · have : s.db.game_players.countP (fun p => p.user_id == u) = 0 :=
      List.countP_eq_zero.mpr (by intro p hp; simpa using hrows p hp)
    omega
  · intro hh; rw [hhost] at hh; cases hh
  · intro hin; rw [hout] at hin; cases hin

/-- A room-card write keeps the row's id and host. -/
theorem setRoomCard_fields (rid fid : Nat) (rm : Room) :
    (setRoomCard rid fid rm).id = rm.id ∧ (setRoomCard rid fid rm).host_id = rm.host_id ∧
    (setRoomCard rid fid rm).current_card_id
      = (if rm.id == rid then some fid else rm.current_card_id) := by
  unfold setRoomCard; split <;> simp_all

/-- `fetchPlayers` preserves the invariant. -/
theorem inv_fetchPlayers {u : Nat} {s : GState} (h : Inv u s) (hin : s.inRoom = true) :
    Inv u (fetchPlayers s) := by
  refine ⟨h.uid, ?_, ?_, ?_, h.rowOnce, h.hostOk, ?_⟩
  · intro hf
    exact absurd (hf.symm.trans hin) Bool.false_ne_true
  · intro _ p hp hu; exact h.rowRoom hin p hp hu
  · intro p hp hu
    have hroom : p.room_id = s.client.roomId := h.rowRoom hin p hp hu
    have hpf : p ∈ s.db.game_players.filter (fun q => q.room_id == s.client.roomId) :=
      List.mem_filter.mpr ⟨hp, by simp [hroom]⟩
    have hcount : (s.db.game_players.filter
        (fun q => q.room_id == s.client.roomId)).countP
        (fun q => q.user_id == s.client.userId) ≤ 1 := by
      have h1 := countP_filter_le (fun q => q.user_id == s.client.userId)
        (fun q => q.room_id == s.client.roomId) s.db.game_players
      have h2 := h.rowOnce
      rw [h.uid] at h1 ⊢
      omega
    have hfind := find?_of_countP_le_one hcount hpf (by simp [hu, h.uid])
    have hc : cachedScore (fetchPlayers s).client = p.score := by
      unfold fetchPlayers cachedScore
      dsimp only
      rw [hfind]
    rw [show (fetchPlayers s).db = s.db from rfl] at *
    rw [hc]
    omega
  · intro _ rm hl hnone
    exact h.awaiting hin rm hl hnone

/-- `checkIfHost` preserves the invariant. -/
theorem inv_checkIfHost {u : Nat} {s : GState} (h : Inv u s) : Inv u (checkIfHost s) := by
  refine ⟨h.uid, h.lobbyRows, h.rowRoom, h.rowBound, h.rowOnce, ?_, h.awaiting⟩
  intro hh
  have hh2 : (match lookupRoom s.db s.client.roomId with
      | some rm => rm.host_id == s.client.userId
      | none => false) = true := hh
  cases hr : lookupRoom s.db s.client.roomId with
  | none => rw [hr] at hh2; cases hh2
  | some rm =>
    rw [hr] at hh2
    exact ⟨rm, hr, by rw [← h.uid]; exact beq_iff_eq.mp hh2⟩

/-- `fetchCurrentCard` preserves the invariant. -/
theorem inv_fetchCurrentCard {u : Nat} {s : GState} (h : Inv u s) :
    Inv u (fetchCurrentCard s) := by
  unfold fetchCurrentCard
  split
  · exact h
  · split
    · exact h
    · split
      · exact h
      · rename_i x1 rm hr x2 fid hcc x3 card hfc
        refine ⟨h.uid, h.lobbyRows, h.rowRoom, h.rowBound, h.rowOnce, h.hostOk, ?_⟩
        intro _ rm2 hl2 hnone
        have hl3 : lookupRoom s.db s.client.roomId = some rm2 := hl2
        rw [hr] at hl3
        cases hl3
        rw [hcc] at hnone
        cases hnone

/-- `leaveRoom` preserves the invariant. -/
theorem inv_leave {u : Nat} {s : GState} (h : Inv u s) (hin : s.inRoom = true) :
    Inv u (leaveRoom s) := by
  refine ⟨h.uid, ?_, ?_, ?_, ?_, h.hostOk, ?_⟩
  · intro _ p hp hu
    obtain ⟨hmem, hcond⟩ := List.mem_filter.mp hp
    have hroom := h.rowRoom hin p hmem hu
    have hkey : playerKey s.client.roomId s.client.userId p = true := by
      simp [playerKey, hroom, hu, h.uid]
    rw [hkey] at hcond
    cases hcond
  · intro hf
    exact absurd hf Bool.false_ne_true
  · intro p hp hu
    exact h.rowBound p (List.mem_filter.mp hp).1 hu
  · exact le_trans (countP_filter_le _ _ _) h.rowOnce
  · intro hf
    exact absurd hf Bool.false_ne_true

/-- `submitAnswer` preserves the invariant. -/
theorem inv_submit {u : Nat} {s : GState} (h : Inv u s) (hin : s.inRoom = true)
    (text : String) (updErr : Bool) : Inv u (submitAnswer text updErr s) := by
  unfold submitAnswer
  split
  · exact h
  · rename_i x1 card hcurr
    split
    · exact h
    · split
      · split
        · exact inv_banner h (some scoreErrorFeedback) s.client.pendingAdvance
        · refine ⟨h.uid, ?_, ?_, ?_, ?_, ?_, ?_⟩
          · intro hf
            exact absurd (hf.symm.trans hin) Bool.false_ne_true
          · intro _ p hp hu
            obtain ⟨q, hq, rfl⟩ := List.mem_map.mp hp
            rw [(setScore_fields s.client.roomId s.client.userId
              (cachedScore s.client + 1) q).2] at hu
            rw [(setScore_fields s.client.roomId s.client.userId
              (cachedScore s.client + 1) q).1]
            exact h.rowRoom hin q hq hu
          · intro p hp hu
            obtain ⟨q, hq, rfl⟩ := List.mem_map.mp hp
            rw [(setScore_fields s.client.roomId s.client.userId
              (cachedScore s.client + 1) q).2] at hu
            have hroom : q.room_id = s.client.roomId := h.rowRoom hin q hq hu
            have hkey : playerKey s.client.roomId s.client.userId q = true := by
              simp [playerKey, hroom, hu, h.uid]
            have hsc : (setScore s.client.roomId s.client.userId
                (cachedScore s.client + 1) q).score = cachedScore s.client + 1 := by
              simp [setScore, hkey]
            rw [hsc]
            exact Nat.le_refl _
          · have hpres : ∀ q : Player,
                ((setScore s.client.roomId s.client.userId
                  (cachedScore s.client + 1) q).user_id == u) = (q.user_id == u) := by
              intro q
              rw [(setScore_fields s.client.roomId s.client.userId
                (cachedScore s.client + 1) q).2]
            have hmap := countP_map_pred
              (setScore s.client.roomId s.client.userId (cachedScore s.client + 1))
              (fun p => p.user_id == u) hpres s.db.game_players
            exact le_trans (le_of_eq hmap) h.rowOnce
          · intro hh
            exact h.hostOk hh
          · intro _ rm hl hnone
            exact h.awaiting hin rm hl hnone
      · exact inv_banner h (some (wrongFeedback card)) s.client.pendingAdvance

/-- `startNewRound` preserves the invariant. -/
theorem inv_startNewRound {u : Nat} {s : GState} (h : Inv u s) (pick : Option Flashcard) :
    Inv u (startNewRound pick s) := by
  unfold startNewRound
  split
  · cases pick with
    | none =>
      refine ⟨h.uid, h.lobbyRows, h.rowRoom, h.rowBound, h.rowOnce, ?_, ?_⟩
      · intro hh
        exact h.hostOk hh
      · intro hin rm hl hnone
        exact h.awaiting hin rm hl hnone
    | some c =>
      refine ⟨h.uid, h.lobbyRows, h.rowRoom, h.rowBound, h.rowOnce, ?_, ?_⟩
      · intro hh
        obtain ⟨rm, hl, hhostid⟩ := h.hostOk hh
        refine ⟨setRoomCard s.client.roomId c.id rm, ?_, ?_⟩
        · show (s.db.rooms.map (setRoomCard s.client.roomId c.id)).find?
            (fun r2 => r2.id == s.client.roomId)
              = some (setRoomCard s.client.roomId c.id rm)
          rw [find?_map_pred _ _
            (fun x => by rw [(setRoomCard_fields s.client.roomId c.id x).1])]
          unfold lookupRoom at hl
          rw [hl]
          rfl
        · rw [(setRoomCard_fields s.client.roomId c.id rm).2.1]
          exact hhostid
      · intro hin rm2 hl2 hnone
        have hl2s : (s.db.rooms.map (setRoomCard s.client.roomId c.id)).find?
            (fun r2 => r2.id == s.client.roomId) = some rm2 := hl2
        rw [find?_map_pred _ _
          (fun x => by rw [(setRoomCard_fields s.client.roomId c.id x).1])] at hl2s
        cases hl : s.db.rooms.find? (fun r2 => r2.id == s.client.roomId) with
        | none => rw [hl] at hl2s; cases hl2s
        | some rm0 =>
          rw [hl] at hl2s
          have hrm2 : rm2 = setRoomCard s.client.roomId c.id rm0 := by
            injection hl2s with hh2
            exact hh2.symm
          have hpred0 := List.find?_some hl
          have hpred : (rm0.id == s.client.roomId) = true := hpred0
          have hcard : rm2.current_card_id = some c.id := by
            rw [hrm2, (setRoomCard_fields s.client.roomId c.id rm0).2.2, hpred]
            simp
          rw [hcard] at hnone
          cases hnone
  · exact h

/-- The timer callback preserves the invariant. -/
theorem inv_fireTimer {u : Nat} {s : GState} (h : Inv u s) (pick : Option Flashcard) :
    Inv u (timeoutFire pick s) := by
  unfold timeoutFire
  split
  · exact inv_startNewRound (inv_banner h s.client.feedback false) pick
  · exact h

/-- The database part of a successful-transport join insert. -/
theorem insertPlayer_none_db (db : DB) (r u : Nat) :
    (Lobby.insertPlayer db r u none).1
      = if db.game_players.any (playerKey r u) then db
        else { db with game_players := db.game_players ++ [⟨r, u, 0⟩] } := by
  cases hany : db.game_players.any (playerKey r u) <;>
    simp [Lobby.insertPlayer, hany]

/-- Entering a room from the lobby preserves the invariant. -/
theorem inv_join {u : Nat} {s : GState} (h : Inv u s) (hout : s.inRoom = false) (r : Nat) :
    Inv u (joinAndEnter u r s) := by
  unfold joinAndEnter
  rw [insertPlayer_none_db]
  split
  · refine ⟨rfl, ?_, ?_, ?_, h.rowOnce, ?_, ?_⟩
    · intro hf
      exact Bool.noConfusion hf
    · intro _ p hp hu
      exact absurd hu (h.lobbyRows hout p hp)
    · intro p hp hu
      exact absurd hu (h.lobbyRows hout p hp)
    · intro hh
      exact Bool.noConfusion hh
    · intro _ rm _ _
      rfl
  · refine ⟨rfl, ?_, ?_, ?_, ?_, ?_, ?_⟩
    · intro hf
      exact Bool.noConfusion hf
    · intro _ p hp hu
      rcases List.mem_append.mp hp with hold | hnew
      · exact absurd hu (h.lobbyRows hout p hold)
      · have hpe : p = ⟨r, u, 0⟩ := by simpa using hnew
        rw [hpe]
        rfl
    · intro p hp hu
      rcases List.mem_append.mp hp with hold | hnew
      · exact absurd hu (h.lobbyRows hout p hold)
      · have hpe : p = ⟨r, u, 0⟩ := by simpa using hnew
        rw [hpe]
        exact Nat.zero_le _
    · show (s.db.game_players ++ [(⟨r, u, 0⟩ : Player)]).countP
        (fun p => p.user_id == u) ≤ 1
      have h0 : s.db.game_players.countP (fun p => p.user_id == u) = 0 :=
        List.countP_eq_zero.mpr (by intro p hp; simpa using h.lobbyRows hout p hp)
      simp [List.countP_append, h0, List.countP_cons]
    · intro hh
      exact Bool.noConfusion hh
    · intro _ rm _ _
      rfl

/-- The four possible results of `createRoom` for an authenticated caller. -/
theorem createRoom_cases (db : DB) (name : String) (u rid : Nat) (re je : Bool) :
    Lobby.createRoom db name (some u) rid re je = (db, .validationFailed) ∨
    Lobby.createRoom db name (some u) rid re je = (db, .roomInsertFailed) ∨
    Lobby.createRoom db name (some u) rid re je
      = ({ db with rooms := db.rooms ++ [⟨rid, name, u, true, none⟩] },
          .createdJoinFailed rid) ∨
    Lobby.createRoom db name (some u) rid re je
      = ({ db with
            rooms := db.rooms ++ [⟨rid, name, u, true, none⟩],
            game_players := db.game_players ++ [⟨rid, u, 0⟩] }, .created rid) := by
  by_cases hv : (jsTrim name == "") = true
  · left
    simp [Lobby.createRoom, hv]
  · rw [Bool.not_eq_true] at hv
    cases re with
    | true =>
      right; left
      simp [Lobby.createRoom, hv]
    | false =>
      cases je with
      | true =>
        right; right; left
        simp [Lobby.createRoom, hv]
      | false =>
        right; right; right
        simp [Lobby.createRoom, hv]

/-- Creating a room from the lobby preserves the invariant. -/
theorem inv_create {u : Nat} {s : GState} (h : Inv u s) (hout : s.inRoom = false)
    (rid : Nat) (name : String) (re je : Bool) :
    Inv u (createAndEnter rid name re je u s) := by
  unfold createAndEnter
  rcases createRoom_cases s.db name u rid re je with hc | hc | hc | hc <;> rw [hc]
  · exact h
  · exact h
  · refine ⟨h.uid, ?_, ?_, ?_, h.rowOnce, ?_, ?_⟩
    · intro _
      exact h.lobbyRows hout
    · intro hin
      exact absurd (hout.symm.trans hin) Bool.false_ne_true
    · intro p hp hu
      exact h.rowBound p hp hu
    · intro hh
      obtain ⟨rm, hl, hhost⟩ := h.hostOk hh
      refine ⟨rm, ?_, hhost⟩
      unfold lookupRoom at hl ⊢
      exact find?_append_some _ hl
    · intro hin
      exact absurd (hout.symm.trans hin) Bool.false_ne_true
  · refine ⟨rfl, ?_, ?_, ?_, ?_, ?_, ?_⟩
    · intro hf
      exact Bool.noConfusion hf
    · intro _ p hp hu
      rcases List.mem_append.mp hp with hold | hnew
      · exact absurd hu (h.lobbyRows hout p hold)
      · have hpe : p = ⟨rid, u, 0⟩ := by simpa using hnew
        rw [hpe]
        rfl
    · intro p hp hu
      rcases List.mem_append.mp hp with hold | hnew
      · exact absurd hu (h.lobbyRows hout p hold)
      · have hpe : p = ⟨rid, u, 0⟩ := by simpa using hnew
        rw [hpe]
        exact Nat.zero_le _
    · show (s.db.game_players ++ [(⟨rid, u, 0⟩ : Player)]).countP
        (fun p => p.user_id == u) ≤ 1
      have h0 : s.db.game_players.countP (fun p => p.user_id == u) = 0 :=
        List.countP_eq_zero.mpr (by intro p hp; simpa using h.lobbyRows hout p hp)
      simp [List.countP_append, h0, List.countP_cons]
    · intro hh
      exact Bool.noConfusion hh
    · intro _ rm _ _
      rfl

/-- Every step preserves the invariant. -/
theorem inv_step {u : Nat} {s s2 : GState} (h : Inv u s) (hs : Step u s s2) :
    Inv u s2 := by
  cases hs with
  | join r hout => exact inv_join h hout r
  | create rid name re je hout => exact inv_create h hout rid name re je
  | fetchP hin => exact inv_fetchPlayers h hin
  | fetchC hin => exact inv_fetchCurrentCard h
  | checkH hin => exact inv_checkIfHost h
  | newRound pick hin hp => exact inv_startNewRound h pick
  | submit text updErr hin => exact inv_submit h hin text updErr
  | fireTimer pick hin hp => exact inv_fireTimer h pick
  | leave hin => exact inv_leave h hin

/-- Every reachable session state satisfies the invariant. -/
theorem inv_reach {u : Nat} {s : GState} (h : Reach u s) : Inv u s := by
  induction h with
  | init s h0 => exact inv_init h0
  | step s s2 h hs ih => exact inv_step ih hs

end Game

/-! ## Behaviour of `submitAnswer` on each branch -/

open Game in
/-- On a correct answer with a successful score update, `submitAnswer` maps
the caller's membership row to the cached score plus one, appends exactly one
`match_history` row, shows the success banner and schedules the round
advance. -/
theorem submit_correct_state (s : GState) (card : Flashcard) (text : String)
    (hc : s.client.currentCard = some card) (ht : (jsTrim text == "") = false)
    (hcorr : isCorrect text card.answer = true) :
    submitAnswer text false s
      = { db := { s.db with
            game_players := s.db.game_players.map
              (setScore s.client.roomId s.client.userId (cachedScore s.client + 1)),
            match_history := s.db.match_history
              ++ [⟨s.client.roomId, card.id, some s.client.userId⟩] },
          client := { s.client with
            feedback := some correctFeedback, pendingAdvance := true },
          inRoom := s.inRoom } := by
  simp [submitAnswer, hc, ht, hcorr]

open Game in
/-- On a correct answer whose score update errors, `submitAnswer` only shows
the error banner. -/
theorem submit_updErr_state (s : GState) (card : Flashcard) (text : String)
    (hc : s.client.currentCard = some card) (ht : (jsTrim text == "") = false)
    (hcorr : isCorrect text card.answer = true) :
    submitAnswer text true s
      = { s with client := { s.client with feedback := some scoreErrorFeedback } } := by
  simp [submitAnswer, hc, ht, hcorr]

open Game in
/-- On an incorrect answer, `submitAnswer` only shows the failure banner. -/
theorem submit_wrong_state (s : GState) (card : Flashcard) (text : String) (e : Bool)
    (hc : s.client.currentCard = some card) (ht : (jsTrim text == "") = false)
    (hcorr : isCorrect text card.answer = false) :
    submitAnswer text e s
      = { s with client := { s.client with feedback := some (wrongFeedback card) } } := by
  simp [submitAnswer, hc, ht, hcorr]

/-! ## Claims about `submitAnswer` -/

open Game in
/-- C1.  For every correct answer submission (current card present, submitted
text non-empty after trimming, normalised text equal to the card's normalised
answer) with the store accepting the update, `submitAnswer` writes the
caller's cached score plus 1 (the cache defaulting to 0 when no membership
row is found in it) to the membership row keyed by
`(room_id, actingAccount.id)`, and inserts exactly one `match_history` row
for that room and card with `winner_id` equal to the submitter. -/
theorem submitAnswer_correct_scores_and_records (s : GState) (card : Flashcard)
    (text : String) (p : Player)
    (hc : s.client.currentCard = some card)
    (ht : jsTrim text ≠ "")
    (hcorr : jsNormalize text = jsNormalize card.answer)
    (hp : lookupPlayer s.db s.client.roomId s.client.userId = some p) :
    lookupPlayer (submitAnswer text false s).db s.client.roomId s.client.userId
      = some { p with score := cachedScore s.client + 1 } ∧
    (submitAnswer text false s).db.match_history
      = s.db.match_history ++ [⟨s.client.roomId, card.id, some s.client.userId⟩] := by
  have htb : (jsTrim text == "") = false := beq_eq_false_iff_ne.mpr ht
  have hcb : isCorrect text card.answer = true := by
    unfold isCorrect
    exact beq_iff_eq.mpr hcorr
  rw [submit_correct_state s card text hc htb hcb]
  refine ⟨?_, rfl⟩
  have hkeyfix : ∀ q : Player,
      playerKey s.client.roomId s.client.userId
        (setScore s.client.roomId s.client.userId (cachedScore s.client + 1) q)
      = playerKey s.client.roomId s.client.userId q := by
    intro q
    unfold playerKey
    rw [(setScore_fields s.client.roomId s.client.userId (cachedScore s.client + 1) q).1,
      (setScore_fields s.client.roomId s.client.userId (cachedScore s.client + 1) q).2]
  show (s.db.game_players.map
      (setScore s.client.roomId s.client.userId (cachedScore s.client + 1))).find?
      (playerKey s.client.roomId s.client.userId)
    = some { p with score := cachedScore s.client + 1 }
  rw [find?_map_pred _ _ hkeyfix]
  have hfind : s.db.game_players.find? (playerKey s.client.roomId s.client.userId)
      = some p := hp
  rw [hfind]
  have hkp0 := List.find?_some hfind
  have hkp : playerKey s.client.roomId s.client.userId p = true := hkp0
  simp [setScore, hkp]

open Game in
/-- Witness for C1: user 7 in room 1 with cached score 2 answers " Paris "
against stored answer "Paris"; the stored row becomes score 3 and one match
record for (room 1, card 5) with winner 7 is appended. -/
theorem submitAnswer_correct_scores_and_records_witness :
    lookupPlayer (submitAnswer " Paris " false
        (GState.mk (DB.mk [⟨1, "Quiz", 7, true, some 5⟩] [⟨5, "Q", "Paris", "Geo"⟩]
            [⟨1, 7, 2⟩] [])
          (Client.mk 1 7 [⟨1, 7, 2⟩] (some ⟨5, "Q", "Paris", "Geo"⟩) none true false)
          true)).db 1 7
      = some ⟨1, 7, 3⟩ ∧
    (submitAnswer " Paris " false
        (GState.mk (DB.mk [⟨1, "Quiz", 7, true, some 5⟩] [⟨5, "Q", "Paris", "Geo"⟩]
            [⟨1, 7, 2⟩] [])
          (Client.mk 1 7 [⟨1, 7, 2⟩] (some ⟨5, "Q", "Paris", "Geo"⟩) none true false)
          true)).db.match_history
      = [] ++ [⟨1, 5, some 7⟩] :=
  submitAnswer_correct_scores_and_records
    (GState.mk (DB.mk [⟨1, "Quiz", 7, true, some 5⟩] [⟨5, "Q", "Paris", "Geo"⟩]
        [⟨1, 7, 2⟩] [])
      (Client.mk 1 7 [⟨1, 7, 2⟩] (some ⟨5, "Q", "Paris", "Geo"⟩) none true false)
      true)
    ⟨5, "Q", "Paris", "Geo"⟩ " Paris " ⟨1, 7, 2⟩ rfl (by decide) (by decide) (by decide)

open Game in
/-- C2.  `submitAnswer` judges a submission correct exactly when the two
strings are equal after lowercasing and trimming surrounding whitespace: the
source comparison `isCorrect` coincides with equality of the spec's
normalisation, the success banner is shown (for an accepted update) iff the
normalised strings agree, " Paris " and "paris" both match the stored answer
"Paris", and nothing else (no fuzzy or partial match) is accepted. -/
theorem submitAnswer_normalized_comparison :
    (∀ a b : String, isCorrect a b = true ↔ specNormalize a = specNormalize b) ∧
    (∀ (s : GState) (card : Flashcard) (text : String),
      s.client.currentCard = some card → jsTrim text ≠ "" →
      ((Game.submitAnswer text false s).client.feedback.map Feedback.success
          = some true
        ↔ specNormalize text = specNormalize card.answer)) ∧
    isCorrect " Paris " "Paris" = true ∧
    isCorrect "paris" "Paris" = true := by
  have hbase : ∀ a b : String, isCorrect a b = true ↔ specNormalize a = specNormalize b := by
    intro a b
    unfold isCorrect specNormalize jsNormalize
    exact beq_iff_eq
  refine ⟨hbase, ?_, by decide, by decide⟩
  intro s card text hc ht
  have htb : (jsTrim text == "") = false := beq_eq_false_iff_ne.mpr ht
  cases hcorr : isCorrect text card.answer with
  | true =>
    rw [submit_correct_state s card text hc htb hcorr]
    constructor
    · intro _
      exact (hbase text card.answer).mp hcorr
    · intro _
      rfl
  | false =>
    rw [submit_wrong_state s card text false hc htb hcorr]
    constructor
    · intro hmm
      exfalso
      simp [wrongFeedback] at hmm
    · intro heq
      exfalso
      have : isCorrect text card.answer = true := (hbase text card.answer).mpr heq
      rw [hcorr] at this
      cases this

open Game in
/-- Witness for C2 at a concrete session: submitting " Paris " against the
stored answer "Paris" shows the success banner, and the normalisation facts
are instantiated. -/
theorem submitAnswer_normalized_comparison_witness :
    ((Game.submitAnswer " Paris " false
        (GState.mk (DB.mk [] [] [] [])
          (Client.mk 1 7 [] (some ⟨5, "Q", "Paris", "Geo"⟩) none false false)
          true)).client.feedback.map Feedback.success = some true
      ↔ specNormalize " Paris " = specNormalize "Paris") ∧
    isCorrect " Paris " "Paris" = true ∧
    isCorrect "paris" "Paris" = true :=
  ⟨submitAnswer_normalized_comparison.2.1
      (GState.mk (DB.mk [] [] [] [])
        (Client.mk 1 7 [] (some ⟨5, "Q", "Paris", "Geo"⟩) none false false)
        true)
      ⟨5, "Q", "Paris", "Geo"⟩ " Paris " rfl (by decide),
    submitAnswer_normalized_comparison.2.2.1,
    submitAnswer_normalized_comparison.2.2.2⟩

open Game in
/-- C7.  For every incorrect submission (current card present, non-empty
trimmed text, normalised strings unequal), `submitAnswer` emits failure
feedback whose message reveals the stored correct answer, and performs no
state mutation: the store (memberships, match records, rooms) is unchanged
and only the feedback banner of the client changes. -/
theorem submitAnswer_incorrect_no_mutation (s : GState) (card : Flashcard)
    (text : String) (e : Bool)
    (hc : s.client.currentCard = some card)
    (ht : jsTrim text ≠ "")
    (hw : jsNormalize text ≠ jsNormalize card.answer) :
    submitAnswer text e s
      = { s with client := { s.client with feedback := some (wrongFeedback card) } } ∧
    (∃ intro, (wrongFeedback card).message = intro ++ card.answer) ∧
    (wrongFeedback card).success = false ∧
    (submitAnswer text e s).db = s.db := by
  have htb : (jsTrim text == "") = false := beq_eq_false_iff_ne.mpr ht
  have hcb : isCorrect text card.answer = false := by
    unfold isCorrect
    exact beq_eq_false_iff_ne.mpr hw
  have hstate := submit_wrong_state s card text e hc htb hcb
  refine ⟨hstate, ⟨"Wrong! The correct answer was: ", rfl⟩, rfl, ?_⟩
  rw [hstate]

open Game in
/-- Witness for C7: answering "Rome" against stored answer "Paris" only sets
the failure banner revealing "Paris". -/
theorem submitAnswer_incorrect_no_mutation_witness :
    submitAnswer "Rome" false
        (GState.mk (DB.mk [⟨1, "Quiz", 7, true, some 5⟩] [] [⟨1, 7, 2⟩] [])
          (Client.mk 1 7 [⟨1, 7, 2⟩] (some ⟨5, "Q", "Paris", "Geo"⟩) none false false)
          true)
      = { GState.mk (DB.mk [⟨1, "Quiz", 7, true, some 5⟩] [] [⟨1, 7, 2⟩] [])
            (Client.mk 1 7 [⟨1, 7, 2⟩] (some ⟨5, "Q", "Paris", "Geo"⟩) none false false)
            true with
          client := { Client.mk 1 7 [⟨1, 7, 2⟩] (some ⟨5, "Q", "Paris", "Geo"⟩)
              none false false with
            feedback := some (wrongFeedback ⟨5, "Q", "Paris", "Geo"⟩) } } ∧
    (∃ intro, (wrongFeedback ⟨5, "Q", "Paris", "Geo"⟩).message
        = intro ++ (⟨5, "Q", "Paris", "Geo"⟩ : Flashcard).answer) ∧
    (wrongFeedback ⟨5, "Q", "Paris", "Geo"⟩).success = false ∧
    (submitAnswer "Rome" false
        (GState.mk (DB.mk [⟨1, "Quiz", 7, true, some 5⟩] [] [⟨1, 7, 2⟩] [])
          (Client.mk 1 7 [⟨1, 7, 2⟩] (some ⟨5, "Q", "Paris", "Geo"⟩) none false false)
          true)).db
      = DB.mk [⟨1, "Quiz", 7, true, some 5⟩] [] [⟨1, 7, 2⟩] [] :=
  submitAnswer_incorrect_no_mutation
    (GState.mk (DB.mk [⟨1, "Quiz", 7, true, some 5⟩] [] [⟨1, 7, 2⟩] [])
      (Client.mk 1 7 [⟨1, 7, 2⟩] (some ⟨5, "Q", "Paris", "Geo"⟩) none false false)
      true)
    ⟨5, "Q", "Paris", "Geo"⟩ "Rome" false rfl (by decide) (by decide)

open Game in
/-- C10.  When the answer is correct but the membership score update errors,
`submitAnswer` stops with the error banner and prior state intact: the store
is unchanged (in particular no `match_history` insert), no success banner is
shown, and no round advance is scheduled; with a successful update the
`match_history` insert, the success banner and the scheduled advance all
occur. -/
theorem submitAnswer_update_error_aborts (s : GState) (card : Flashcard)
    (text : String)
    (hc : s.client.currentCard = some card)
    (ht : jsTrim text ≠ "")
    (hcorr : jsNormalize text = jsNormalize card.answer) :
    (submitAnswer text true s
      = { s with client := { s.client with feedback := some scoreErrorFeedback } }) ∧
    scoreErrorFeedback.success = false ∧
    (submitAnswer text true s).db = s.db ∧
    (submitAnswer text true s).client.pendingAdvance = s.client.pendingAdvance ∧
    (submitAnswer text false s).db.match_history
      = s.db.match_history ++ [⟨s.client.roomId, card.id, some s.client.userId⟩] ∧
    (submitAnswer text false s).client.pendingAdvance = true ∧
    (submitAnswer text false s).client.feedback = some correctFeedback := by
  have htb : (jsTrim text == "") = false := beq_eq_false_iff_ne.mpr ht
  have hcb : isCorrect text card.answer = true := by
    unfold isCorrect
    exact beq_iff_eq.mpr hcorr
  have herr := submit_updErr_state s card text hc htb hcb
  have hok := submit_correct_state s card text hc htb hcb
  refine ⟨herr, rfl, ?_, ?_, ?_, ?_, ?_⟩
  · rw [herr]
  · rw [herr]
  · rw [hok]
  · rw [hok]
  · rw [hok]

open Game in
/-- Witness for C10 at a concrete session: with the update erroring, only the
error banner is set; with it succeeding, the match record, success banner and
scheduled advance appear. -/
theorem submitAnswer_update_error_aborts_witness :
    (submitAnswer "paris" true
        (GState.mk (DB.mk [] [] [⟨1, 7, 2⟩] [])
          (Client.mk 1 7 [⟨1, 7, 2⟩] (some ⟨5, "Q", "Paris", "Geo"⟩) none true false)
          true)
      = { GState.mk (DB.mk [] [] [⟨1, 7, 2⟩] [])
            (Client.mk 1 7 [⟨1, 7, 2⟩] (some ⟨5, "Q", "Paris", "Geo"⟩) none true false)
            true with
          client := { Client.mk 1 7 [⟨1, 7, 2⟩] (some ⟨5, "Q", "Paris", "Geo"⟩)
              none true false with
            feedback := some scoreErrorFeedback } }) ∧
    scoreErrorFeedback.success = false ∧
    (submitAnswer "paris" true
        (GState.mk (DB.mk [] [] [⟨1, 7, 2⟩] [])
          (Client.mk 1 7 [⟨1, 7, 2⟩] (some ⟨5, "Q", "Paris", "Geo"⟩) none true false)
          true)).db
      = DB.mk [] [] [⟨1, 7, 2⟩] [] ∧
    (submitAnswer "paris" true
        (GState.mk (DB.mk [] [] [⟨1, 7, 2⟩] [])
          (Client.mk 1 7 [⟨1, 7, 2⟩] (some ⟨5, "Q", "Paris", "Geo"⟩) none true false)
          true)).client.pendingAdvance = false ∧
    (submitAnswer "paris" false
        (GState.mk (DB.mk [] [] [⟨1, 7, 2⟩] [])
          (Client.mk 1 7 [⟨1, 7, 2⟩] (some ⟨5, "Q", "Paris", "Geo"⟩) none true false)
          true)).db.match_history
      = [] ++ [⟨1, 5, some 7⟩] ∧
    (submitAnswer "paris" false
        (GState.mk (DB.mk [] [] [⟨1, 7, 2⟩] [])
          (Client.mk 1 7 [⟨1, 7, 2⟩] (some ⟨5, "Q", "Paris", "Geo"⟩) none true false)
          true)).client.pendingAdvance = true ∧
    (submitAnswer "paris" false
        (GState.mk (DB.mk [] [] [⟨1, 7, 2⟩] [])
          (Client.mk 1 7 [⟨1, 7, 2⟩] (some ⟨5, "Q", "Paris", "Geo"⟩) none true false)
          true)).client.feedback = some correctFeedback :=
  submitAnswer_update_error_aborts
    (GState.mk (DB.mk [] [] [⟨1, 7, 2⟩] [])
      (Client.mk 1 7 [⟨1, 7, 2⟩] (some ⟨5, "Q", "Paris", "Geo"⟩) none true false)
      true)
    ⟨5, "Q", "Paris", "Geo"⟩ "paris" rfl (by decide) (by decide)

/-! ## Claims about the session state machine -/

open Game in
/-- C5.  For every reachable session state of account `u`, if the room row
names a host other than `u`, then `startNewRound` is a complete no-op: no
store write and no client change, so `Room.current_card_id` is unchanged. -/
theorem startNewRound_nonhost_noop (u : Nat) (s : GState) (h : Reach u s)
    (rm : Room) (pick : Option Flashcard)
    (hr : lookupRoom s.db s.client.roomId = some rm) (hh : rm.host_id ≠ u) :
    startNewRound pick s = s := by
  have hinv := inv_reach h
  cases hhost : s.client.isHost with
  | false => simp [startNewRound, hhost]
  | true =>
    exfalso
    obtain ⟨rm2, hl2, hhost2⟩ := hinv.hostOk hhost
    rw [hr] at hl2
    injection hl2 with he
    rw [← he] at hhost2
    exact hh hhost2

open Game in
/-- Witness for C5: user 7 sits in room 1 hosted by account 9; calling
`startNewRound` changes nothing. -/
theorem startNewRound_nonhost_noop_witness :
    startNewRound (some ⟨5, "Q", "Paris", "Geo"⟩)
        (GState.mk (DB.mk [⟨1, "Quiz", 9, true, none⟩] [⟨5, "Q", "Paris", "Geo"⟩] [] [])
          (freshClient 1 7) false)
      = GState.mk (DB.mk [⟨1, "Quiz", 9, true, none⟩] [⟨5, "Q", "Paris", "Geo"⟩] [] [])
          (freshClient 1 7) false :=
  startNewRound_nonhost_noop 7
    (GState.mk (DB.mk [⟨1, "Quiz", 9, true, none⟩] [⟨5, "Q", "Paris", "Geo"⟩] [] [])
      (freshClient 1 7) false)
    (Reach.init _ ⟨rfl, rfl, rfl, rfl, by intro p hp; cases hp⟩)
    ⟨1, "Quiz", 9, true, none⟩ (some ⟨5, "Q", "Paris", "Geo"⟩) (by decide) (by decide)

namespace Game

/-- `startNewRound` never writes `game_players`. -/
theorem startNewRound_players (pick : Option Flashcard) (s : GState) :
    (startNewRound pick s).db.game_players = s.db.game_players := by
  unfold startNewRound
  split
  · cases pick <;> rfl
  · rfl

/-- The timer callback never writes `game_players`. -/
theorem timeoutFire_players (pick : Option Flashcard) (s : GState) :
    (timeoutFire pick s).db.game_players = s.db.game_players := by
  unfold timeoutFire
  split
  · exact startNewRound_players pick _
  · rfl

/-- `fetchCurrentCard` never writes the store. -/
theorem fetchCurrentCard_db (s : GState) : (fetchCurrentCard s).db = s.db := by
  unfold fetchCurrentCard
  split
  · rfl
  · split
    · rfl
    · split
      · rfl
      · rfl

end Game

/-- `lookupPlayer` only depends on the membership rows. -/
theorem lookupPlayer_congr {db1 db2 : DB}
    (hpl : db2.game_players = db1.game_players) (r uid : Nat) :
    lookupPlayer db2 r uid = lookupPlayer db1 r uid := by
  unfold lookupPlayer
  rw [hpl]

open Game in
/-- C6.  A membership row's score is monotonically non-decreasing: across
every operation of the application (submitAnswer, startNewRound, join, leave,
createRoom, the refresh reads and the round timer), a row present before and
after the step never has its stored score lowered; a row created by
join/createRoom starts at the default score 0 and is only ever raised. -/
theorem membership_score_monotone (u : Nat) (s s2 : GState) (hre : Reach u s)
    (hst : Step u s s2) (r uid : Nat) (p p2 : Player)
    (hp : lookupPlayer s.db r uid = some p)
    (hp2 : lookupPlayer s2.db r uid = some p2) :
    p.score ≤ p2.score := by
  have hinv := inv_reach hre
  cases hst with
  | fetchP hin =>
    have hp2s : lookupPlayer s.db r uid = some p2 := hp2
    rw [hp] at hp2s
    injection hp2s with he
    rw [he]
  | fetchC hin =>
    have hpl : (fetchCurrentCard s).db.game_players = s.db.game_players := by
      rw [fetchCurrentCard_db]
    have hp2s : lookupPlayer s.db r uid = some p2 := by
      rw [← lookupPlayer_congr hpl r uid]
      exact hp2
    rw [hp] at hp2s
    injection hp2s with he
    rw [he]
  | checkH hin =>
    have hp2s : lookupPlayer s.db r uid = some p2 := hp2
    rw [hp] at hp2s
    injection hp2s with he
    rw [he]
  | newRound pick hin hpk =>
    have hp2s : lookupPlayer s.db r uid = some p2 := by
      rw [← lookupPlayer_congr (startNewRound_players pick s) r uid]
      exact hp2
    rw [hp] at hp2s
    injection hp2s with he
    rw [he]
  | fireTimer pick hin hpk =>
    have hp2s : lookupPlayer s.db r uid = some p2 := by
      rw [← lookupPlayer_congr (timeoutFire_players pick s) r uid]
      exact hp2
    rw [hp] at hp2s
    injection hp2s with he
    rw [he]
  | leave hin =>
    have hp2b : (s.db.game_players.filter
        (fun q => !(playerKey s.client.roomId s.client.userId q))).find?
        (playerKey r uid) = some p2 := hp2
    by_cases hsame : r = s.client.roomId ∧ uid = s.client.userId
    · exfalso
      have hkp0 := List.find?_some hp2b
      have hkp : playerKey r uid p2 = true := hkp0
      have hmem := List.mem_of_find?_eq_some hp2b
      have hcond := (List.mem_filter.mp hmem).2
      rw [hsame.1, hsame.2] at hkp
      rw [hkp] at hcond
      cases hcond
    · have himp : ∀ q : Player, playerKey r uid q = true →
          (!(playerKey s.client.roomId s.client.userId q)) = true := by
        intro q hq
        unfold playerKey at hq ⊢
        rw [Bool.and_eq_true] at hq
        have hq1 := beq_iff_eq.mp hq.1
        have hq2 := beq_iff_eq.mp hq.2
        rcases not_and_or.mp hsame with hne | hne
        · have : (q.room_id == s.client.roomId) = false :=
            beq_eq_false_iff_ne.mpr (by rw [hq1]; exact hne)
          simp [this]
        · have : (q.user_id == s.client.userId) = false :=
            beq_eq_false_iff_ne.mpr (by rw [hq2]; exact hne)
          simp [this]
      rw [find?_filter_pred _ _ himp] at hp2b
      have hfind : s.db.game_players.find? (playerKey r uid) = some p := hp
      rw [hfind] at hp2b
      injection hp2b with he
      rw [← he]
  | join r2 hout =>
    have hp2c : lookupPlayer (Lobby.insertPlayer s.db r2 u none).1 r uid = some p2 := hp2
    rw [insertPlayer_none_db] at hp2c
    split at hp2c
    · rw [hp] at hp2c
      injection hp2c with he
      rw [he]
    · have hp2b : (s.db.game_players ++ [(⟨r2, u, 0⟩ : Player)]).find?
          (playerKey r uid) = some p2 := hp2c
      have hfind : s.db.game_players.find? (playerKey r uid) = some p := hp
      rw [find?_append_some _ hfind] at hp2b
      injection hp2b with he
      rw [he]
  | create rid name re je hout =>
    unfold createAndEnter at hp2
    rcases createRoom_cases s.db name u rid re je with hcr | hcr | hcr | hcr <;>
      rw [hcr] at hp2
    · have hp2d : lookupPlayer s.db r uid = some p2 := hp2
      rw [hp] at hp2d
      injection hp2d with he
      rw [he]
    · have hp2d : lookupPlayer s.db r uid = some p2 := hp2
      rw [hp] at hp2d
      injection hp2d with he
      rw [he]
    · have hp2d : lookupPlayer s.db r uid = some p2 := hp2
      rw [hp] at hp2d
      injection hp2d with he
      rw [he]
    · have hp2b : (s.db.game_players ++ [(⟨rid, u, 0⟩ : Player)]).find?
          (playerKey r uid) = some p2 := hp2
      have hfind : s.db.game_players.find? (playerKey r uid) = some p := hp
      rw [find?_append_some _ hfind] at hp2b
      injection hp2b with he
      rw [he]
  | submit text updErr hin =>
    unfold submitAnswer at hp2
    split at hp2
    · rw [hp] at hp2
      injection hp2 with he
      rw [he]
    · rename_i x1 card hcurr
      split at hp2
      · rw [hp] at hp2
        injection hp2 with he
        rw [he]
      · split at hp2
        · split at hp2
          · rw [hp] at hp2
            injection hp2 with he
            rw [he]
          · -- successful correct submission: the score write
            have hkeyfix : ∀ q : Player,
                playerKey r uid (setScore s.client.roomId s.client.userId
                  (cachedScore s.client + 1) q) = playerKey r uid q := by
              intro q
              unfold playerKey
              rw [(setScore_fields s.client.roomId s.client.userId
                  (cachedScore s.client + 1) q).1,
                (setScore_fields s.client.roomId s.client.userId
                  (cachedScore s.client + 1) q).2]
            have hp2b : (s.db.game_players.map (setScore s.client.roomId
                s.client.userId (cachedScore s.client + 1))).find?
                (playerKey r uid) = some p2 := hp2
            rw [find?_map_pred _ _ hkeyfix] at hp2b
            have hfind : s.db.game_players.find? (playerKey r uid) = some p := hp
            rw [hfind] at hp2b
            injection hp2b with he
            by_cases hkey : playerKey s.client.roomId s.client.userId p = true
            · have hscore : p2.score = cachedScore s.client + 1 := by
                rw [← he]
                simp [setScore, hkey]
              have hmem := List.mem_of_find?_eq_some hfind
              have huser : p.user_id = u := by
                unfold playerKey at hkey
                rw [Bool.and_eq_true] at hkey
                rw [beq_iff_eq.mp hkey.2]
                exact hinv.uid
              have hbound := hinv.rowBound p hmem huser
              rw [hscore]
              exact hbound
            · have hkf : playerKey s.client.roomId s.client.userId p = false := by
                cases hkk : playerKey s.client.roomId s.client.userId p
                · rfl
                · exact absurd hkk hkey
              have hpe : p2 = p := by
                rw [← he]
                simp [setScore, hkf]
              rw [hpe]
        · rw [hp] at hp2
          injection hp2 with he
          rw [he]

open Game in
/-- Witness for C6: account 7 joins room 1 while account 9 already holds a
row with score 3; across the join step 9's row keeps its score. -/
theorem membership_score_monotone_witness :
    (⟨1, 9, 3⟩ : Player).score ≤ (⟨1, 9, 3⟩ : Player).score :=
  membership_score_monotone 7
    (GState.mk (DB.mk [⟨1, "Quiz", 9, true, none⟩] [] [⟨1, 9, 3⟩] [])
      (freshClient 0 7) false)
    (joinAndEnter 7 1
      (GState.mk (DB.mk [⟨1, "Quiz", 9, true, none⟩] [] [⟨1, 9, 3⟩] [])
        (freshClient 0 7) false))
    (Reach.init _ ⟨rfl, rfl, rfl, rfl, by decide⟩)
    (Step.join _ 1 rfl)
    1 9 ⟨1, 9, 3⟩ ⟨1, 9, 3⟩ (by decide) (by decide)

open Game in
/-- C8.  In every reachable mounted session, `fetchCurrentCard` reads
`Room.current_card_id`; when it is non-null and the referenced flashcard
exists, that flashcard becomes the session's current card, and when it is
null the session is awaiting a round: no card is displayed, before or after
the refresh. -/
theorem fetchCurrentCard_reflects_room (u : Nat) (s : GState) (h : Reach u s)
    (hin : s.inRoom = true) :
    (∀ rm fid card, lookupRoom s.db s.client.roomId = some rm →
      rm.current_card_id = some fid → lookupCard s.db fid = some card →
      (fetchCurrentCard s).client.currentCard = some card) ∧
    (∀ rm, lookupRoom s.db s.client.roomId = some rm → rm.current_card_id = none →
      s.client.currentCard = none ∧ (fetchCurrentCard s).client.currentCard = none) := by
  constructor
  · intro rm fid card hr hcc hfc
    simp [fetchCurrentCard, hr, hcc, hfc]
  · intro rm hr hnone
    have hcur : s.client.currentCard = none := (inv_reach h).awaiting hin rm hr hnone
    refine ⟨hcur, ?_⟩
    simp [fetchCurrentCard, hr, hnone, hcur]

open Game in
/-- Witness for C8: in a freshly joined session on room 1 whose current card
id is 5, the refresh displays flashcard 5. -/
theorem fetchCurrentCard_reflects_room_witness :
    (fetchCurrentCard (joinAndEnter 7 1
        (GState.mk (DB.mk [⟨1, "Quiz", 7, true, some 5⟩] [⟨5, "Q", "Paris", "Geo"⟩] [] [])
          (freshClient 0 7) false))).client.currentCard
      = some ⟨5, "Q", "Paris", "Geo"⟩ :=
  (fetchCurrentCard_reflects_room 7
    (joinAndEnter 7 1
      (GState.mk (DB.mk [⟨1, "Quiz", 7, true, some 5⟩] [⟨5, "Q", "Paris", "Geo"⟩] [] [])
        (freshClient 0 7) false))
    (Reach.step _ _ (Reach.init _ ⟨rfl, rfl, rfl, rfl, by decide⟩)
      (Step.join _ 1 rfl))
    rfl).1
    ⟨1, "Quiz", 7, true, some 5⟩ 5 ⟨5, "Q", "Paris", "Geo"⟩
    (by decide) (by decide) (by decide)
